import Mathlib

/-!
Verification of the drawing-engine core of the LineAccurate editor.

The development shallowly embeds the TypeScript sources:
* `DrawingContext.tsx` (data model, `drawingReducer`, `initialState`),
* `DrawingCanvas.tsx` (`getPageBounds`, `getContentSize`, `clampPan`,
  `getPageAtPoint`, `clipToPageBounds`),
* the tool components (`LineTool`, `FreehandTool`, `AngleTool`, `EraserTool`),
* `utils/serialization.ts` (`serializeDrawing` / `deserializeDrawing`).

Conventions of the embedding:
* JavaScript numbers are idealised as `ℚ` wherever the code only does field
  arithmetic and comparisons, and as `ℝ` where the code calls `Math.sqrt` /
  `Math.atan2` (measurement values).  The element/state types are parametric
  in the scalar `α` used for stored measurement values: the reducer and the
  serializer never compute with measurements, they only carry them.
* JavaScript array indexing `a[i]` on an in-range index is modelled by
  `List.getD i` (the reducer only indexes `history` inside bounds checks).
* Page numbers, history indices and page counts are natural numbers.
-/

namespace LineAccurate

/-- A document-space point (`Point` in `DrawingContext.tsx`), rational
coordinates. -/
structure QPt where
  x : ℚ
  y : ℚ
deriving DecidableEq

/-- The `DrawingElement.type` in `DrawingContext.tsx`. -/
inductive ElemType where
  | line
  | angle
  | freehand
  | text
deriving DecidableEq

/-- The `DrawingElement.style`. -/
structure Style where
  strokeColor : String
  strokeWidth : ℚ
  fillColor : Option String
deriving DecidableEq

/-- The `DrawingElement.measurements`; `α` is the scalar type used for the stored
measurement values (`ℝ` where the tools compute them, `ℚ` for JSON data). -/
structure Meas (α : Type) where
  length : Option α
  radius : Option α
  angle : Option α
deriving DecidableEq

/-- The `DrawingElement` in `DrawingContext.tsx`.  Optional fields are `Option`s
(`undefined` = `none`). -/
structure DrawingElement (α : Type) where
  id : String
  type : ElemType
  points : List QPt
  style : Style
  layerId : String
  text : Option String
  fontSize : Option ℚ
  measurements : Option (Meas α)
  selected : Option Bool
deriving DecidableEq

/-- The `Layer` in `DrawingContext.tsx`. -/
structure Layer where
  id : String
  name : String
  visible : Bool
  locked : Bool
  color : String
deriving DecidableEq

/-- Per-tool stroke settings (the `{ strokeWidth, strokeColor }` records of
`ToolSettings`). -/
structure StrokeSettings where
  strokeWidth : ℚ
  strokeColor : String
deriving DecidableEq

/-- The `ToolSettings.text`. -/
structure TextSettings where
  fontSize : ℚ
  strokeColor : String
deriving DecidableEq

/-- The `ToolSettings.eraser`. -/
structure EraserSettings where
  strokeWidth : ℚ
deriving DecidableEq

/-- The `ToolSettings` in `DrawingContext.tsx`. -/
structure ToolSettings where
  line : StrokeSettings
  angle : StrokeSettings
  freehand : StrokeSettings
  text : TextSettings
  eraser : EraserSettings
deriving DecidableEq

/-- The `Tool` in `DrawingContext.tsx`. -/
inductive Tool where
  | select
  | line
  | angle
  | freehand
  | eraser
  | text
deriving DecidableEq

/-- The `Units`; the source's `'in'` is written `inch` (`in` is reserved). -/
inductive Units where
  | mm
  | cm
  | inch
  | ft
deriving DecidableEq

/-- An entry of `DrawingState.savedProjects`. -/
structure SavedProject (α : Type) where
  id : String
  name : String
  data : List (DrawingElement α)
  timestamp : ℚ
deriving DecidableEq

/-- The `DrawingState` in `DrawingContext.tsx`, with every field of the source. -/
structure DrawingState (α : Type) where
  currentTool : Tool
  elements : List (DrawingElement α)
  selectedElementIds : List String
  layers : List Layer
  currentLayerId : String
  gridSize : ℚ
  gridVisible : Bool
  snapToGrid : Bool
  units : Units
  zoom : ℚ
  panOffset : QPt
  history : List (List (DrawingElement α))
  historyIndex : Nat
  toolSettings : ToolSettings
  isDragging : Bool
  dragStart : Option QPt
  editingElement : Option String
  savedProjects : List (SavedProject α)
  currentProjectName : String
  snapThreshold : ℚ
  currentPage : Nat
  totalPages : Nat
  pageWidth : ℚ
  pageHeight : ℚ
  minZoom : ℚ
deriving DecidableEq

/-- The actions of `DrawingAction` exercised by the verified claims, with the
payloads of the source.  (The remaining settings/project actions of the source
touch none of the fields the claims are about.) -/
inductive DrawingAction (α : Type) where
  | setTool (tool : Tool)
  | addElement (element : DrawingElement α)
  | deleteElements (ids : List String)
  | selectElements (ids : List String)
  | replaceElements (elements : List (DrawingElement α))
  | setZoom (zoom : ℚ)
  | setPan (offset : QPt)
  | addLayer (layer : Layer)
  | deleteLayer (id : String)
  | setCurrentLayer (id : String)
  | undo
  | redo
  | saveState
  | setCurrentPage (page : Nat)
  | addPage
  | deletePage (page : Nat)
  | setMinZoom (minZoom : ℚ)

/-- The `initialState` in `DrawingContext.tsx`. -/
def initialState (α : Type) : DrawingState α where
  currentTool := .select
  elements := []
  selectedElementIds := []
  layers :=
    [ { id := "layer-1", name := "Layer 1", visible := true, locked := false, color := "#ffffff" }
    , { id := "layer-2", name := "Dimensions", visible := true, locked := false, color := "#00ff00" }
    , { id := "layer-3", name := "Construction", visible := true, locked := false, color := "#ffff00" } ]
  currentLayerId := "layer-1"
  gridSize := 10
  gridVisible := true
  snapToGrid := true
  units := .mm
  zoom := 1
  panOffset := ⟨0, 0⟩
  history := [[]]
  historyIndex := 0
  toolSettings :=
    { line := { strokeWidth := 2, strokeColor := "#ffffff" }
    , angle := { strokeWidth := 2, strokeColor := "#00ff00" }
    , freehand := { strokeWidth := 2, strokeColor := "#ffffff" }
    , text := { fontSize := 14, strokeColor := "#ffffff" }
    , eraser := { strokeWidth := 10 } }
  isDragging := false
  dragStart := none
  editingElement := none
  savedProjects := []
  currentProjectName := "Untitled Project"
  snapThreshold := 7
  currentPage := 1
  totalPages := 1
  pageWidth := 794
  pageHeight := 1123
  minZoom := 1/2

variable {α : Type}

/-- The `drawingReducer` in `DrawingContext.tsx`, case by case.  JavaScript's
`history[historyIndex ∓ 1]` is `List.getD` (the branch guards keep the index
in range).  In `DELETE_LAYER`, `layers[0].id` on the filtered list is read
with `head?`; the `[]` fallback is unreachable for states with pairwise
distinct layer ids (JavaScript would throw there). -/
def drawingReducer (state : DrawingState α) (action : DrawingAction α) : DrawingState α :=
  match action with
  | .setTool tool =>
      { state with currentTool := tool, selectedElementIds := [], editingElement := none }
  | .addElement element =>
      let newElements := state.elements ++ [element]
      { state with
        elements := newElements
        history := state.history.take (state.historyIndex + 1) ++ [newElements]
        historyIndex := state.historyIndex + 1 }
  | .deleteElements ids =>
      let filteredElements := state.elements.filter (fun el => ¬ ids.contains el.id)
      { state with
        elements := filteredElements
        selectedElementIds := []
        history := state.history.take (state.historyIndex + 1) ++ [filteredElements]
        historyIndex := state.historyIndex + 1 }
  | .replaceElements elements =>
      { state with
        elements := elements
        selectedElementIds := []
        history := state.history.take (state.historyIndex + 1) ++ [elements]
        historyIndex := state.historyIndex + 1 }
  | .selectElements ids =>
      { state with selectedElementIds := ids }
  | .setZoom zoom =>
      { state with zoom := max state.minZoom (min 3 zoom) }
  | .setPan offset =>
      { state with panOffset := offset }
  | .addLayer layer =>
      { state with layers := state.layers ++ [layer] }
  | .deleteLayer id =>
      if state.layers.length ≤ 1 then state
      else
        let layers := state.layers.filter (fun l => l.id ≠ id)
        let currentLayerId :=
          if state.currentLayerId = id then
            match layers.head? with
            | some l => l.id
            | none => state.currentLayerId
          else state.currentLayerId
        let elements := state.elements.filter (fun el => el.layerId ≠ id)
        { state with layers := layers, currentLayerId := currentLayerId, elements := elements }
  | .setCurrentLayer id =>
      { state with currentLayerId := id }
  | .undo =>
      if 0 < state.historyIndex then
        { state with
          elements := state.history.getD (state.historyIndex - 1) []
          historyIndex := state.historyIndex - 1
          selectedElementIds := [] }
      else state
  | .redo =>
      if state.historyIndex < state.history.length - 1 then
        { state with
          elements := state.history.getD (state.historyIndex + 1) []
          historyIndex := state.historyIndex + 1
          selectedElementIds := [] }
      else state
  | .saveState =>
      { state with
        history := state.history.take (state.historyIndex + 1) ++ [state.elements]
        historyIndex := state.historyIndex + 1 }
  | .setCurrentPage page =>
      { state with currentPage := max 1 (min page state.totalPages) }
  | .addPage =>
      { state with totalPages := state.totalPages + 1, currentPage := state.totalPages + 1 }
  | .deletePage page =>
      if state.totalPages ≤ 1 then state
      else
        let newTotalPages := state.totalPages - 1
        let newCurrentPage :=
          if page ≤ state.currentPage ∧ 1 < state.currentPage then state.currentPage - 1
          else if newTotalPages < state.currentPage then newTotalPages
          else state.currentPage
        { state with totalPages := newTotalPages, currentPage := newCurrentPage }
  | .setMinZoom minZoom =>
      { state with minZoom := min 1 (max (1/10) minZoom) }

/-! ### Viewport transform (`DrawingCanvas.tsx`) -/

/-- The `CANVAS_PADDING` in `DrawingCanvas.tsx`. -/
def CANVAS_PADDING : ℚ := 50

/-- The `PAGE_MARGIN` in `DrawingCanvas.tsx`. -/
def PAGE_MARGIN : ℚ := 20

/-- The rectangle returned by `getPageBounds`. -/
structure PageRect where
  x : ℚ
  y : ℚ
  width : ℚ
  height : ℚ
deriving DecidableEq

/-- The `getPageBounds` in `DrawingCanvas.tsx`; `pageWidth`/`pageHeight` come from
the drawing state. -/
def getPageBounds (pageWidth pageHeight : ℚ) (pageNumber : Nat) : PageRect where
  x := CANVAS_PADDING
  y := CANVAS_PADDING + ((pageNumber : ℚ) - 1) * (pageHeight + PAGE_MARGIN)
  width := pageWidth
  height := pageHeight

/-- The containment test of `getPageAtPoint`
(`point.x >= bounds.x && point.x <= bounds.x + bounds.width && ...`). -/
def rectContains (bounds : PageRect) (point : QPt) : Bool :=
  decide (bounds.x ≤ point.x ∧ point.x ≤ bounds.x + bounds.width ∧
    bounds.y ≤ point.y ∧ point.y ≤ bounds.y + bounds.height)

/-- The `getPageAtPoint` in `DrawingCanvas.tsx`: the first page (numbered from 1)
whose bounds contain the point, else `none`. -/
def getPageAtPoint (totalPages : Nat) (pageWidth pageHeight : ℚ) (point : QPt) : Option Nat :=
  ((List.range totalPages).map (· + 1)).find?
    (fun page => rectContains (getPageBounds pageWidth pageHeight page) point)

/-- The `clipToPageBounds` in `DrawingCanvas.tsx`: identity when the point lies in
no page, else clamp into the containing page's rectangle. -/
def clipToPageBounds (totalPages : Nat) (pageWidth pageHeight : ℚ) (point : QPt) : QPt :=
  match getPageAtPoint totalPages pageWidth pageHeight point with
  | none => point
  | some pageNumber =>
      let bounds := getPageBounds pageWidth pageHeight pageNumber
      { x := max bounds.x (min (bounds.x + bounds.width) point.x)
        y := max bounds.y (min (bounds.y + bounds.height) point.y) }

/-- The `getContentSize` in `DrawingCanvas.tsx` (total width, total height). -/
def getContentSize (totalPages : Nat) (pageWidth pageHeight : ℚ) : ℚ × ℚ :=
  ( CANVAS_PADDING * 2 + pageWidth
  , CANVAS_PADDING * 2 + (totalPages : ℚ) * pageHeight + ((totalPages : ℚ) - 1) * PAGE_MARGIN )

/-- The `clampPan` in `DrawingCanvas.tsx`.  `totalWidth`/`totalHeight` are the
content size, `viewW`/`viewH` the container rectangle divided by the zoom
(the DOM rectangle and zoom enter the closure as outer state). -/
def clampPan (totalWidth totalHeight viewW viewH : ℚ) (pan : QPt) : QPt :=
  let clampedX :=
    if totalWidth ≤ viewW then (viewW - totalWidth) / 2
    else max (-(totalWidth - viewW)) (min 0 pan.x)
  let clampedY :=
    if totalHeight ≤ viewH then (viewH - totalHeight) / 2
    else max (-(totalHeight - viewH)) (min 0 pan.y)
  { x := clampedX, y := clampedY }

/-! ### Geometry kernel: the angle computation of `AngleTool.tsx` -/

/-- A point with real coordinates, for the `Math.atan2`-based angle math. -/
structure RPt where
  x : ℝ
  y : ℝ

/-- The `Math.atan2 y x`, embedded as the argument of the complex number
`x + y·i` (range `(-π, π]`, `atan2 0 0 = 0`, exactly JavaScript's
convention for non-negative-zero inputs). -/
noncomputable def atan2 (y x : ℝ) : ℝ :=
  Complex.arg ⟨x, y⟩

/-- The angle committed by `AngleTool.tsx`'s third click (spec name
`angleBetween(center, from, to)`): the `atan2` angle of `to` around `center`
minus that of `from` around `center`, plus `2π` when negative. -/
noncomputable def angleBetween (center fromPt toPt : RPt) : ℝ :=
  let baselineAngle := atan2 (fromPt.y - center.y) (fromPt.x - center.x)
  let endpointAngle := atan2 (toPt.y - center.y) (toPt.x - center.x)
  let angleDiff := endpointAngle - baselineAngle
  if angleDiff < 0 then angleDiff + 2 * Real.pi else angleDiff

/-- Coordinate cast `QPt → RPt`. -/
noncomputable def QPt.toR (p : QPt) : RPt :=
  { x := (p.x : ℝ), y := (p.y : ℝ) }

/-- The `Math.sqrt(Math.pow(b.x - a.x, 2) + Math.pow(b.y - a.y, 2))`, the segment
length computed by `LineTool.tsx` and `FreehandTool.tsx`. -/
noncomputable def segLength (a b : QPt) : ℝ :=
  Real.sqrt (((b.x - a.x : ℚ) : ℝ) ^ 2 + ((b.y - a.y : ℚ) : ℝ) ^ 2)

/-! ### Tool state machines

Each handler receives the document-space point produced by `getCanvasPoint`.
The shared React state `(isDrawing, currentElement)` is threaded explicitly;
`Date.now()`-based element ids enter as the `newId` parameter. -/

/-- The origin, standing in for JavaScript's out-of-range array read in the
`points[i]` accesses below (all of which are in range in every reachable
draft). -/
def dummyPt : QPt := ⟨0, 0⟩

/-- The `LineTool.tsx` `handleMouseDown`: refuse outside any page, else start a
2-point draft at the clipped point. -/
def lineDown (st : DrawingState ℝ) (newId : String)
    (l : Bool × Option (DrawingElement ℝ)) (point : QPt) :
    Bool × Option (DrawingElement ℝ) :=
  if (getPageAtPoint st.totalPages st.pageWidth st.pageHeight point).isNone then l
  else
    let clippedPoint := clipToPageBounds st.totalPages st.pageWidth st.pageHeight point
    let newElement : DrawingElement ℝ :=
      { id := newId, type := .line, points := [clippedPoint, clippedPoint]
        style := { strokeColor := st.toolSettings.line.strokeColor
                   strokeWidth := st.toolSettings.line.strokeWidth, fillColor := none }
        layerId := st.currentLayerId
        text := none, fontSize := none, measurements := none, selected := none }
    (true, some newElement)

/-- The `LineTool.tsx` `handleMouseMove`: update the second point to the clipped
cursor and recompute the length measurement. -/
noncomputable def lineMove (st : DrawingState ℝ)
    (l : Bool × Option (DrawingElement ℝ)) (point : QPt) :
    Bool × Option (DrawingElement ℝ) :=
  match l with
  | (false, _) => l
  | (true, none) => l
  | (true, some cur) =>
      let clippedPoint := clipToPageBounds st.totalPages st.pageWidth st.pageHeight point
      let p0 := cur.points.getD 0 dummyPt
      (true, some { cur with
        points := [p0, clippedPoint]
        measurements := some { length := some (segLength p0 clippedPoint)
                               radius := none, angle := none } })

/-- The `LineTool.tsx` `handleMouseUp`: commit the draft (the second component is
the element dispatched as `ADD_ELEMENT`, if any) and reset. -/
def lineUp (l : Bool × Option (DrawingElement ℝ)) :
    (Bool × Option (DrawingElement ℝ)) × Option (DrawingElement ℝ) :=
  match l with
  | (true, some cur) => ((false, none), some cur)
  | _ => (l, none)

/-- The `FreehandTool.tsx` `handleMouseDown`: refuse outside any page, else start
a 1-point draft. -/
def freehandDown (st : DrawingState ℝ) (newId : String)
    (l : Bool × Option (DrawingElement ℝ)) (point : QPt) :
    Bool × Option (DrawingElement ℝ) :=
  if (getPageAtPoint st.totalPages st.pageWidth st.pageHeight point).isNone then l
  else
    let clippedPoint := clipToPageBounds st.totalPages st.pageWidth st.pageHeight point
    let newElement : DrawingElement ℝ :=
      { id := newId, type := .freehand, points := [clippedPoint]
        style := { strokeColor := st.toolSettings.freehand.strokeColor
                   strokeWidth := st.toolSettings.freehand.strokeWidth, fillColor := none }
        layerId := st.currentLayerId
        text := none, fontSize := none, measurements := none, selected := none }
    (true, some newElement)

/-- The decimation test of `FreehandTool.tsx` `handleMouseMove`:
`Math.sqrt(dx² + dy²) > 2`, written on squares (`sqrt s > 2 ↔ s > 4`; both
sides are non-negative, see `farEnough_iff_segLength`). -/
def farEnough (a b : QPt) : Bool :=
  decide (4 < (b.x - a.x) ^ 2 + (b.y - a.y) ^ 2)

/-- The `FreehandTool.tsx` `handleMouseMove`: append the clipped cursor when it is
more than 2 px from the last recorded point. -/
def freehandMove (st : DrawingState ℝ)
    (l : Bool × Option (DrawingElement ℝ)) (point : QPt) :
    Bool × Option (DrawingElement ℝ) :=
  match l with
  | (false, _) => l
  | (true, none) => l
  | (true, some cur) =>
      let clippedPoint := clipToPageBounds st.totalPages st.pageWidth st.pageHeight point
      let lastPoint := cur.points.getD (cur.points.length - 1) dummyPt
      if farEnough lastPoint clippedPoint then
        (true, some { cur with points := cur.points ++ [clippedPoint] })
      else l

/-- The `FreehandTool.tsx` `handleMouseUp`: commit only when drawing with a draft
of more than one point; otherwise the handler does nothing at all. -/
def freehandUp (l : Bool × Option (DrawingElement ℝ)) :
    (Bool × Option (DrawingElement ℝ)) × Option (DrawingElement ℝ) :=
  match l with
  | (true, some cur) =>
      if 1 < cur.points.length then ((false, none), some cur) else (l, none)
  | _ => (l, none)

/-- The `AngleTool.tsx` `handleMouseDown`.  Local state is
`(clickCount, isDrawing, currentElement)`; the second component of the result
is the element dispatched as `ADD_ELEMENT` (third click only).  Note the
source computes the endpoint angle from the unclipped `point` while storing
`clippedPoint`. -/
noncomputable def angleDown (st : DrawingState ℝ) (newId : String)
    (l : Nat × Bool × Option (DrawingElement ℝ)) (point : QPt) :
    (Nat × Bool × Option (DrawingElement ℝ)) × Option (DrawingElement ℝ) :=
  if (getPageAtPoint st.totalPages st.pageWidth st.pageHeight point).isNone then (l, none)
  else
    let clippedPoint := clipToPageBounds st.totalPages st.pageWidth st.pageHeight point
    match l with
    | (0, isDrawing, _) =>
        let newElement : DrawingElement ℝ :=
          { id := newId, type := .angle, points := [clippedPoint]
            style := { strokeColor := st.toolSettings.angle.strokeColor
                       strokeWidth := st.toolSettings.angle.strokeWidth, fillColor := none }
            layerId := st.currentLayerId
            text := none, fontSize := none, measurements := none, selected := none }
        ((1, isDrawing, some newElement), none)
    | (1, _isDrawing, some cur) =>
        ((2, true, some { cur with points := cur.points ++ [clippedPoint] }), none)
    | (1, isDrawing, none) => ((1, isDrawing, none), none)
    | (2, _, some cur) =>
        let baseline := cur.points.getD 0 dummyPt
        let center := cur.points.getD 1 dummyPt
        let angleDiff := angleBetween center.toR baseline.toR point.toR
        let finalElement := { cur with
          points := cur.points ++ [clippedPoint]
          measurements := some { length := none, radius := none, angle := some angleDiff } }
        (((0 : Nat), false, none), some finalElement)
    | (2, isDrawing, none) => ((2, isDrawing, none), none)
    | _ => (l, none)

/-- The `AngleTool.tsx` `handleMouseMove`: baseline preview after the first click,
angle preview (with live measurement) after the second. -/
noncomputable def angleMove (st : DrawingState ℝ)
    (l : Nat × Bool × Option (DrawingElement ℝ)) (point : QPt) :
    Nat × Bool × Option (DrawingElement ℝ) :=
  match l with
  | (_, _, none) => l
  | (clickCount, isDrawing, some cur) =>
      let clippedPoint := clipToPageBounds st.totalPages st.pageWidth st.pageHeight point
      if clickCount = 1 then
        (1, isDrawing, some { cur with points := [cur.points.getD 0 dummyPt, clippedPoint] })
      else if clickCount = 2 ∧ isDrawing then
        let baseline := cur.points.getD 0 dummyPt
        let center := cur.points.getD 1 dummyPt
        let angleDiff := angleBetween center.toR baseline.toR clippedPoint.toR
        (2, isDrawing, some { cur with
          points := [baseline, center, clippedPoint]
          measurements := some { length := none, radius := none, angle := some angleDiff } })
      else l

/-! ### Eraser tool (`EraserTool.tsx`) -/

/-- The `isPointNearLine` in `EraserTool.tsx`.  The final
`Math.sqrt(dx² + dy²) <= threshold` is written on squares
(`sqrt s ≤ t ↔ s ≤ t²` for `0 ≤ t`; the eraser size is half a non-negative
stroke width — see `sq_le_iff_sqrt_le`). -/
def isPointNearLine (point lineStart lineEnd : QPt) (threshold : ℚ) : Bool :=
  let A := point.x - lineStart.x
  let B := point.y - lineStart.y
  let C := lineEnd.x - lineStart.x
  let D := lineEnd.y - lineStart.y
  let dot := A * C + B * D
  let lenSq := C * C + D * D
  if lenSq = 0 then decide (A * A + B * B ≤ threshold ^ 2)
  else
    let param := dot / lenSq
    let xx := if param < 0 then lineStart.x else if 1 < param then lineEnd.x
      else lineStart.x + param * C
    let yy := if param < 0 then lineStart.y else if 1 < param then lineEnd.y
      else lineStart.y + param * D
    let dx := point.x - xx
    let dy := point.y - yy
    decide (dx * dx + dy * dy ≤ threshold ^ 2)

/-- The JavaScript `element.fontSize || 14` (any falsy value, `undefined` or
`0`, becomes 14). -/
def fontSizeOr14 (fontSize : Option ℚ) : ℚ :=
  match fontSize with
  | some q => if q = 0 then 14 else q
  | none => 14

/-- The `findElementsToErase` in `EraserTool.tsx`: ids of the visible, unlocked
elements whose geometry passes within `eraser.strokeWidth / 2` of the point. -/
def findElementsToErase (st : DrawingState α) (point : QPt) : List String :=
  let eraserSize := st.toolSettings.eraser.strokeWidth / 2
  st.elements.foldl (fun acc element =>
    match st.layers.find? (fun l => l.id == element.layerId) with
    | none => acc
    | some layer =>
      if ¬ layer.visible ∨ layer.locked then acc
      else
        let shouldErase :=
          match element.type with
          | .line =>
              2 ≤ element.points.length &&
                isPointNearLine point (element.points.getD 0 dummyPt)
                  (element.points.getD 1 dummyPt) eraserSize
          | .angle =>
              3 ≤ element.points.length &&
                (isPointNearLine point (element.points.getD 0 dummyPt)
                    (element.points.getD 1 dummyPt) eraserSize ||
                  isPointNearLine point (element.points.getD 1 dummyPt)
                    (element.points.getD 2 dummyPt) eraserSize)
          | .freehand =>
              (element.points.zip element.points.tail).any
                (fun ab => isPointNearLine point ab.1 ab.2 eraserSize)
          | .text =>
              match element.text with
              | some t =>
                  t ≠ "" && 0 < element.points.length &&
                    (let textPoint := element.points.getD 0 dummyPt
                     let fontSize := fontSizeOr14 element.fontSize
                     let textWidth := (t.length : ℚ) * fontSize * (6 / 10)
                     decide (textPoint.x - eraserSize ≤ point.x ∧
                       point.x ≤ textPoint.x + textWidth + eraserSize ∧
                       textPoint.y - eraserSize ≤ point.y ∧
                       point.y ≤ textPoint.y + fontSize + eraserSize))
              | none => false
        if shouldErase then acc ++ [element.id] else acc) []

/-- The `EraserTool.tsx` `handleMouseDown`: outside any page do nothing; else
delete the hit elements (one `DELETE_ELEMENTS` dispatch when non-empty) and
enter the erasing state. -/
def eraserDown (s : DrawingState α × Bool) (point : QPt) : DrawingState α × Bool :=
  if (getPageAtPoint s.1.totalPages s.1.pageWidth s.1.pageHeight point).isNone then s
  else
    let elementsToErase := findElementsToErase s.1 point
    let st :=
      if elementsToErase ≠ [] then drawingReducer s.1 (.deleteElements elementsToErase)
      else s.1
    (st, true)

/-- The `EraserTool.tsx` `handleMouseMove`: while erasing and inside a page,
delete the hit elements. -/
def eraserMove (s : DrawingState α × Bool) (point : QPt) : DrawingState α × Bool :=
  if ¬ s.2 then s
  else if (getPageAtPoint s.1.totalPages s.1.pageWidth s.1.pageHeight point).isNone then s
  else
    let elementsToErase := findElementsToErase s.1 point
    let st :=
      if elementsToErase ≠ [] then drawingReducer s.1 (.deleteElements elementsToErase)
      else s.1
    (st, s.2)

/-- The `EraserTool.tsx` `handleMouseUp`: one `SAVE_STATE` dispatch if a gesture
was in progress, then leave the erasing state. -/
def eraserUp (s : DrawingState α × Bool) : DrawingState α × Bool :=
  (if s.2 then drawingReducer s.1 .saveState else s.1, false)

/-! ### Serialization (`utils/serialization.ts`)

`serializeDrawing` is `JSON.stringify`, `deserializeDrawing` starts with
`JSON.parse`; the embedding works on parsed JSON trees, with
stringify/parse as the identity on them (a malformed input string already
throws inside `JSON.parse`).  Objects produced by `JSON.parse` have
duplicate-free key lists.  JSON numbers are rationals here. -/

/-- A parsed JSON value. -/
inductive Json where
  | null
  | bool (b : Bool)
  | num (q : ℚ)
  | str (s : String)
  | arr (elems : List Json)
  | obj (fields : List (String × Json))

/-- Key lookup in an object's field list. -/
def getField (fields : List (String × Json)) (key : String) : Option Json :=
  match fields with
  | [] => none
  | (k, v) :: rest => if k = key then some v else getField rest key

/-- JavaScript property access `el[key]` on a parsed JSON value: field lookup
on objects, `undefined` (`none`) on everything else (arrays and primitives
have none of the properties read here). -/
def jsProp (el : Json) (key : String) : Option Json :=
  match el with
  | .obj fields => getField fields key
  | _ => none

/-- The `typeof el === 'object' && el !== null` for a parsed JSON value (arrays
are objects to `typeof`). -/
def jsIsNonNullObject : Json → Bool
  | .arr _ => true
  | .obj _ => true
  | _ => false

/-- JavaScript truthiness of a parsed JSON value. -/
def jsTruthy : Json → Bool
  | .null => false
  | .bool b => b
  | .num q => decide (q ≠ 0)
  | .str s => decide (s ≠ "")
  | .arr _ => true
  | .obj _ => true

/-- The `typeof v === 'string'` for an optional property value. -/
def isStr : Option Json → Bool
  | some (.str _) => true
  | _ => false

/-- The `typeof v === 'number'` for an optional property value. -/
def isNum : Option Json → Bool
  | some (.num _) => true
  | _ => false

/-- The `['line', 'angle', 'freehand', 'text'].includes(el.type)` (false whenever
`el.type` is not a string). -/
def typeOk (v : Option Json) : Bool :=
  match v with
  | some (.str t) => t == "line" || t == "angle" || t == "freehand" || t == "text"
  | _ => false

/-- The style check of `deserializeDrawing`:
`!el.style || typeof el.style.strokeColor !== 'string' ||
typeof el.style.strokeWidth !== 'number'` (negated). -/
def styleOk (v : Option Json) : Bool :=
  match v with
  | none => false
  | some st => jsTruthy st && isStr (jsProp st "strokeColor") && isNum (jsProp st "strokeWidth")

/-- The `el.points.forEach` loop of `deserializeDrawing`. -/
def validatePoints (idx : Nat) : Nat → List Json → Except String Unit
  | _, [] => .ok ()
  | pIdx, p :: rest =>
      if jsIsNonNullObject p && isNum (jsProp p "x") && isNum (jsProp p "y") then
        validatePoints idx (pIdx + 1) rest
      else
        .error ("Invalid point at element " ++ toString idx ++ ", point " ++ toString pIdx)

/-- The per-element body of the `data.forEach` loop of `deserializeDrawing`,
checks in source order. -/
def validateElement (idx : Nat) (el : Json) : Except String Unit :=
  if ¬ jsIsNonNullObject el then .error ("Invalid element at index " ++ toString idx)
  else if ¬ isStr (jsProp el "id") then .error ("Missing id at index " ++ toString idx)
  else if ¬ typeOk (jsProp el "type") then .error ("Invalid type at index " ++ toString idx)
  else
    match jsProp el "points" with
    | some (.arr points) =>
        validatePoints idx 0 points >>= fun _ =>
        if ¬ styleOk (jsProp el "style") then .error ("Invalid style at index " ++ toString idx)
        else if ¬ isStr (jsProp el "layerId") then
          .error ("Missing layerId at index " ++ toString idx)
        else .ok ()
    | _ => .error ("Missing points at index " ++ toString idx)

/-- The indexed `data.forEach` traversal. -/
def validateElements : Nat → List Json → Except String Unit
  | _, [] => .ok ()
  | idx, el :: rest => validateElement idx el >>= fun _ => validateElements (idx + 1) rest

/-- The `deserializeDrawing` in `serialization.ts`: validate and return the parsed
value itself (`return data as SerializedProject`). -/
def deserializeDrawing (data : Json) : Except String Json :=
  match data with
  | .arr elems => (validateElements 0 elems).map (fun _ => data)
  | _ => .error "Invalid format: root is not an array"

/-- A present optional property; `JSON.stringify` drops `undefined` ones. -/
def optField (key : String) : Option Json → List (String × Json)
  | none => []
  | some v => [(key, v)]

/-- The `type` tag strings. -/
def ElemType.toStr : ElemType → String
  | .line => "line"
  | .angle => "angle"
  | .freehand => "freehand"
  | .text => "text"

/-- The `JSON.stringify` of a `Point`. -/
def encodePoint (p : QPt) : Json :=
  .obj [("x", .num p.x), ("y", .num p.y)]

/-- The `JSON.stringify` of a `style` record. -/
def encodeStyle (s : Style) : Json :=
  .obj ([("strokeColor", .str s.strokeColor), ("strokeWidth", .num s.strokeWidth)] ++
    optField "fillColor" (s.fillColor.map .str))

/-- The `JSON.stringify` of a `measurements` record. -/
def encodeMeas (m : Meas ℚ) : Json :=
  .obj (optField "length" (m.length.map .num) ++ optField "radius" (m.radius.map .num) ++
    optField "angle" (m.angle.map .num))

/-- The `JSON.stringify` of a `DrawingElement` (fields in declaration order). -/
def encodeElement (e : DrawingElement ℚ) : Json :=
  .obj ([ ("id", .str e.id)
        , ("type", .str e.type.toStr)
        , ("points", .arr (e.points.map encodePoint))
        , ("style", encodeStyle e.style)
        , ("layerId", .str e.layerId) ] ++
    optField "text" (e.text.map .str) ++
    optField "fontSize" (e.fontSize.map .num) ++
    optField "measurements" (e.measurements.map encodeMeas) ++
    optField "selected" (e.selected.map .bool))

/-- The `serializeDrawing` in `serialization.ts`: `JSON.stringify(elements)`, as a
parsed JSON tree. -/
def serializeDrawing (elements : List (DrawingElement ℚ)) : Json :=
  .arr (elements.map encodeElement)

/-- Reading an optional string property (as the rest of the program reads
`el.text` etc. from a loaded document). -/
def asStr (v : Option Json) : Option String :=
  match v with
  | some (.str s) => some s
  | _ => none

/-- Reading an optional numeric property. -/
def asNum (v : Option Json) : Option ℚ :=
  match v with
  | some (.num q) => some q
  | _ => none

/-- Reading an optional boolean property. -/
def asBool (v : Option Json) : Option Bool :=
  match v with
  | some (.bool b) => some b
  | _ => none

/-- The inverse of the `type` tag. -/
def decodeType (t : String) : Option ElemType :=
  if t = "line" then some .line
  else if t = "angle" then some .angle
  else if t = "freehand" then some .freehand
  else if t = "text" then some .text
  else none

/-- Reading a point back. -/
def decodePoint (j : Json) : Option QPt :=
  match asNum (jsProp j "x"), asNum (jsProp j "y") with
  | some x, some y => some ⟨x, y⟩
  | _, _ => none

/-- Reading a style back. -/
def decodeStyle (j : Json) : Option Style :=
  match asStr (jsProp j "strokeColor"), asNum (jsProp j "strokeWidth") with
  | some c, some w => some { strokeColor := c, strokeWidth := w, fillColor := asStr (jsProp j "fillColor") }
  | _, _ => none

/-- Reading a measurements record back. -/
def decodeMeas (j : Json) : Meas ℚ :=
  { length := asNum (jsProp j "length")
    radius := asNum (jsProp j "radius")
    angle := asNum (jsProp j "angle") }

/-- Reading a point list back. -/
def decodePoints : List Json → Option (List QPt)
  | [] => some []
  | p :: rest =>
      match decodePoint p, decodePoints rest with
      | some q, some qs => some (q :: qs)
      | _, _ => none

/-- Reading one element of the returned document back as a `DrawingElement`
(the semantic content of the source's `data as SerializedProject` cast: the
loaded value is used as an element by the rest of the program). -/
def decodeElement (j : Json) : Option (DrawingElement ℚ) :=
  match asStr (jsProp j "id"), (asStr (jsProp j "type")).bind decodeType,
      jsProp j "points", decodeStyle ((jsProp j "style").getD .null),
      asStr (jsProp j "layerId") with
  | some id, some type, some (.arr points), some style, some layerId =>
      (decodePoints points).map (fun pts =>
        { id := id, type := type, points := pts, style := style, layerId := layerId
          text := asStr (jsProp j "text")
          fontSize := asNum (jsProp j "fontSize")
          measurements := (jsProp j "measurements").map decodeMeas
          selected := asBool (jsProp j "selected") })
  | _, _, _, _, _ => none

/-- Reading an element list back. -/
def decodeElementList : List Json → Option (List (DrawingElement ℚ))
  | [] => some []
  | el :: rest =>
      match decodeElement el, decodeElementList rest with
      | some e, some es => some (e :: es)
      | _, _ => none

/-- Reading the whole document back. -/
def decodeElements (j : Json) : Option (List (DrawingElement ℚ)) :=
  match j with
  | .arr elems => decodeElementList elems
  | _ => none

/-- A point record of the serialized document format, as the spec states it
(§6): an object with numeric `x` and `y`.  Modelled from the spec's words,
for comparison with the validator. -/
def pointSchemaOk (p : Json) : Bool :=
  match p with
  | .obj _ => isNum (jsProp p "x") && isNum (jsProp p "y")
  | _ => false

/-- An entry of the serialized document format, as the spec states it (§6):
an object with string `id`, `type` among the four tags, an array of point
records as `points`, a `style` object with string `strokeColor` and numeric
`strokeWidth`, and a string `layerId`.  Modelled from the spec's words. -/
def elementSchemaOk (el : Json) : Bool :=
  match el with
  | .obj _ =>
      isStr (jsProp el "id") && typeOk (jsProp el "type") &&
      (match jsProp el "points" with
       | some (.arr ps) => ps.all pointSchemaOk
       | _ => false) &&
      (match jsProp el "style" with
       | some (.obj fs) => isStr (getField fs "strokeColor") && isNum (getField fs "strokeWidth")
       | _ => false) &&
      isStr (jsProp el "layerId")
  | _ => false

/-- The serialized document format, as the spec states it (§6): a JSON array
of schema-conforming entries.  Modelled from the spec's words. -/
def docSchemaOk (j : Json) : Bool :=
  match j with
  | .arr elems => elems.all elementSchemaOk
  | _ => false

/-! ### Derived action iteration and sample data -/

/-- The `k` consecutive `UNDO` dispatches. -/
def undoN (k : Nat) (s : DrawingState α) : DrawingState α :=
  (fun s => drawingReducer s .undo)^[k] s

/-- The `k` consecutive `REDO` dispatches. -/
def redoN (k : Nat) (s : DrawingState α) : DrawingState α :=
  (fun s => drawingReducer s .redo)^[k] s

/-- A sequence of dispatches folded through the reducer from the initial
state. -/
def applyActions (acts : List (DrawingAction α)) : DrawingState α :=
  acts.foldl drawingReducer (initialState α)

/-- The history-significant actions: exactly those whose reducer case appends
a snapshot to `history` (`ADD_ELEMENT`, `DELETE_ELEMENTS`, `REPLACE_ELEMENTS`,
`SAVE_STATE`). -/
def isHistorySignificant : DrawingAction α → Bool
  | .addElement _ => true
  | .deleteElements _ => true
  | .replaceElements _ => true
  | .saveState => true
  | _ => false

/-- A minimal line element (used as concrete test data). -/
def sampleElement (id layerId : String) (pts : List QPt) : DrawingElement ℚ where
  id := id
  type := .line
  points := pts
  style := { strokeColor := "#ffffff", strokeWidth := 2, fillColor := none }
  layerId := layerId
  text := none
  fontSize := none
  measurements := none
  selected := none

/-- The same concrete test data with the measurement scalar `ℝ`. -/
def sampleElementR (id layerId : String) (pts : List QPt) : DrawingElement ℝ where
  id := id
  type := .line
  points := pts
  style := { strokeColor := "#ffffff", strokeWidth := 2, fillColor := none }
  layerId := layerId
  text := none
  fontSize := none
  measurements := none
  selected := none

/-- A minimal extra layer (used as concrete test data). -/
def sampleLayer (id : String) : Layer where
  id := id
  name := "Layer"
  visible := true
  locked := false
  color := "#ffffff"

/-- A one-action history-significant sequence (concrete test data). -/
def demoActs : List (DrawingAction ℚ) :=
  [.addElement (sampleElement "e1" "layer-1" [⟨60, 60⟩, ⟨70, 60⟩])]

/-! ## Theorems -/

/-! ### History invariant machinery (claims C1, C2) -/

/-- The cursor/snapshot invariant the reducer maintains: the cursor sits on
the last history entry and `elements` is that snapshot. -/
def histInv (s : DrawingState α) : Prop :=
  s.historyIndex + 1 = s.history.length ∧ s.elements = s.history.getD s.historyIndex []

lemma getD_concat_length (H : List β) (x d : β) : (H ++ [x]).getD H.length d = x := by
  simp [List.getD, List.get?_concat_length]

/-- Shape of any history-significant reducer case: truncate at the cursor,
append the new snapshot, advance. -/
lemma sig_shape (s : DrawingState α) (a : DrawingAction α) (ha : isHistorySignificant a = true) :
    (drawingReducer s a).history =
        s.history.take (s.historyIndex + 1) ++ [(drawingReducer s a).elements]
    ∧ (drawingReducer s a).historyIndex = s.historyIndex + 1 := by
  cases a <;> simp_all [isHistorySignificant, drawingReducer]

lemma histInv_step (s : DrawingState α) (a : DrawingAction α)
    (ha : isHistorySignificant a = true) (hs : histInv s) :
    histInv (drawingReducer s a) := by
  obtain ⟨h1, _⟩ := hs
  obtain ⟨hH, hI⟩ := sig_shape s a ha
  constructor
  · rw [hI, hH]
    simp only [List.length_append, List.length_take, List.length_singleton]
    omega
  · rw [hI, hH, h1, List.take_length, getD_concat_length]

lemma applyActions_foldl_inv (acts : List (DrawingAction α)) (s : DrawingState α)
    (h : ∀ a ∈ acts, isHistorySignificant a = true) (hs : histInv s) :
    histInv (acts.foldl drawingReducer s)
    ∧ (acts.foldl drawingReducer s).historyIndex = s.historyIndex + acts.length := by
  induction acts generalizing s with
  | nil => simpa using hs
  | cons a rest ih =>
      have ha : isHistorySignificant a = true := h a (by simp)
      have hrest : ∀ b ∈ rest, isHistorySignificant b = true := fun b hb => h b (by simp [hb])
      have hstep := histInv_step s a ha hs
      obtain ⟨h1, h2⟩ := ih (drawingReducer s a) hrest hstep
      refine ⟨h1, ?_⟩
      rw [List.foldl_cons] at *
      rw [h2, (sig_shape s a ha).2]
      simp
      omega

lemma histInv_initial : histInv (initialState α) := by
  constructor <;> rfl

lemma applyActions_inv (acts : List (DrawingAction α))
    (h : ∀ a ∈ acts, isHistorySignificant a = true) :
    histInv (applyActions acts) ∧ (applyActions acts).historyIndex = acts.length := by
  have := applyActions_foldl_inv acts (initialState α) h histInv_initial
  simpa [applyActions, initialState] using this

/-- The `k ≤ historyIndex` undos: history untouched, cursor moved back `k`,
elements restored from the snapshot under the cursor. -/
lemma undoN_spec (s : DrawingState α) (k : Nat) (hk : k ≤ s.historyIndex)
    (hE : s.elements = s.history.getD s.historyIndex []) :
    (undoN k s).history = s.history ∧ (undoN k s).historyIndex = s.historyIndex - k
    ∧ (undoN k s).elements = s.history.getD (s.historyIndex - k) [] := by
  induction k with
  | zero =>
      refine ⟨rfl, by simp [undoN], ?_⟩
      simpa [undoN] using hE
  | succ k ih =>
      obtain ⟨ih1, ih2, ih3⟩ := ih (by omega)
      have hpos : 0 < (undoN k s).historyIndex := by omega
      have hstep : undoN (k + 1) s = drawingReducer (undoN k s) .undo := by
        simp [undoN, Function.iterate_succ_apply']
      rw [hstep]
      simp only [drawingReducer, if_pos hpos]
      refine ⟨ih1, by omega, ?_⟩
      rw [ih1, ih2, Nat.sub_sub]

/-- The `k` redos while the target stays in range: history untouched, cursor moved
forward `k`, elements restored from the snapshot under the cursor. -/
lemma redoN_spec (s : DrawingState α) (k : Nat) (hk : s.historyIndex + k < s.history.length)
    (hE : s.elements = s.history.getD s.historyIndex []) :
    (redoN k s).history = s.history ∧ (redoN k s).historyIndex = s.historyIndex + k
    ∧ (redoN k s).elements = s.history.getD (s.historyIndex + k) [] := by
  induction k with
  | zero =>
      refine ⟨rfl, by simp [redoN], ?_⟩
      simpa [redoN] using hE
  | succ k ih =>
      obtain ⟨ih1, ih2, ih3⟩ := ih (by omega)
      have hlt : (redoN k s).historyIndex < (redoN k s).history.length - 1 := by
        rw [ih1, ih2]; omega
      have hstep : redoN (k + 1) s = drawingReducer (redoN k s) .redo := by
        simp [redoN, Function.iterate_succ_apply']
      rw [hstep]
      simp only [drawingReducer, if_pos hlt]
      refine ⟨ih1, by omega, ?_⟩
      rw [ih1, ih2, Nat.add_assoc]

/-- C1: for every sequence of history-significant actions (`ADD_ELEMENT`,
`DELETE_ELEMENTS`, `REPLACE_ELEMENTS`, `SAVE_STATE`) applied by
`drawingReducer` from the initial state, and every `k` no larger than the
number of those actions, dispatching `k` `UNDO`s followed by `k` `REDO`s
yields a state whose elements list is exactly the one held before the
undos. -/
theorem undoRedo_roundtrip {α : Type} (acts : List (DrawingAction α))
    (h : ∀ a ∈ acts, isHistorySignificant a = true) (k : Nat) (hk : k ≤ acts.length) :
    (redoN k (undoN k (applyActions acts))).elements = (applyActions acts).elements := by
  obtain ⟨⟨hlen, hE⟩, hidx⟩ := applyActions_inv acts h
  obtain ⟨u1, u2, u3⟩ := undoN_spec (applyActions acts) k (by omega) hE
  obtain ⟨r1, r2, r3⟩ := redoN_spec (undoN k (applyActions acts)) k
    (by rw [u1, u2]; omega) (by rw [u1, u2]; exact u3)
  rw [r3, u1, u2, Nat.sub_add_cancel (by omega : k ≤ (applyActions acts).historyIndex)]
  exact hE.symm

/-- Witness for C1: one `ADD_ELEMENT`, one undo, one redo on concrete data. -/
theorem undoRedo_roundtrip_witness :
    (∀ a ∈ demoActs, isHistorySignificant a = true) ∧ 1 ≤ demoActs.length
    ∧ (redoN 1 (undoN 1 (applyActions demoActs))).elements = (applyActions demoActs).elements :=
  ⟨by decide, by decide, undoRedo_roundtrip demoActs (by decide) 1 (by decide)⟩

/-- Counterexample to C2 as stated: with `n = 1` significant action
(`ADD_ELEMENT` of a concrete line), one `UNDO`, then a new `ADD_ELEMENT`, the
resulting state does not satisfy `history.length = 1 ∧ historyIndex = 0`
(it has `history.length = 2`, `historyIndex = 1`: the initial empty snapshot
is part of the history). -/
theorem historyTruncation_claim_cx :
    ¬ ((drawingReducer (drawingReducer (applyActions demoActs) .undo)
          (.addElement (sampleElement "e2" "layer-1" []))).history.length = 1
        ∧ (drawingReducer (drawingReducer (applyActions demoActs) .undo)
            (.addElement (sampleElement "e2" "layer-1" []))).historyIndex = 0) := by
  decide

/-- C2 (amended): after `n ≥ 1` history-significant actions, one `UNDO`, and
one new history-significant action, the state satisfies
`history.length = n + 1` and `historyIndex = n` — the history always also
holds the initial empty snapshot, so the claim's counts are off by one; the
pre-undo redo snapshot is indeed discarded by the truncation. -/
theorem historyTruncation_amended {α : Type} (acts : List (DrawingAction α))
    (h : ∀ a ∈ acts, isHistorySignificant a = true) (hn : 1 ≤ acts.length)
    (a : DrawingAction α) (ha : isHistorySignificant a = true) :
    (drawingReducer (drawingReducer (applyActions acts) .undo) a).history.length
        = acts.length + 1
    ∧ (drawingReducer (drawingReducer (applyActions acts) .undo) a).historyIndex
        = acts.length := by
  obtain ⟨⟨hlen, hE⟩, hidx⟩ := applyActions_inv acts h
  have hpos : 0 < (applyActions acts).historyIndex := by omega
  have hu1 : (drawingReducer (applyActions acts) .undo).history = (applyActions acts).history := by
    simp only [drawingReducer, if_pos hpos]
  have hu2 : (drawingReducer (applyActions acts) .undo).historyIndex
      = (applyActions acts).historyIndex - 1 := by
    simp only [drawingReducer, if_pos hpos]
  obtain ⟨hs1, hs2⟩ := sig_shape (drawingReducer (applyActions acts) .undo) a ha
  constructor
  · rw [hs1]
    simp only [List.length_append, List.length_take, List.length_singleton]
    rw [hu1, hu2]
    omega
  · rw [hs2, hu2]
    omega

/-- Witness for C2 (amended) on the concrete one-action history. -/
theorem historyTruncation_amended_witness :
    (∀ a ∈ demoActs, isHistorySignificant a = true) ∧ 1 ≤ demoActs.length
    ∧ isHistorySignificant (.addElement (sampleElement "e2" "layer-1" []) : DrawingAction ℚ) = true
    ∧ (drawingReducer (drawingReducer (applyActions demoActs) .undo)
        (.addElement (sampleElement "e2" "layer-1" []))).history.length = demoActs.length + 1
    ∧ (drawingReducer (drawingReducer (applyActions demoActs) .undo)
        (.addElement (sampleElement "e2" "layer-1" []))).historyIndex = demoActs.length :=
  ⟨by decide, by decide, by decide,
    (historyTruncation_amended demoActs (by decide) (by decide) _ (by decide)).1,
    (historyTruncation_amended demoActs (by decide) (by decide) _ (by decide)).2⟩

/-! ### Pan clamping (claim C7) -/

lemma reclamp (a x : ℚ) (ha : a ≤ 0) : max a (min 0 (max a (min 0 x))) = max a (min 0 x) := by
  have h1 : max a (min 0 x) ≤ 0 := max_le ha (min_le_left _ _)
  rw [min_eq_right h1, ← max_assoc, max_self]

/-- C7: `clampPan` is idempotent; on an axis where the content fits the
viewport it returns the centering value `(viewport − content) / 2` regardless
of the input, and on an axis where the content is larger the result lies in
`[-(content − viewport), 0]`. -/
theorem clampPan_idem_center_range (tw th vw vh : ℚ) (p : QPt) :
    clampPan tw th vw vh (clampPan tw th vw vh p) = clampPan tw th vw vh p
    ∧ (tw ≤ vw → (clampPan tw th vw vh p).x = (vw - tw) / 2)
    ∧ (th ≤ vh → (clampPan tw th vw vh p).y = (vh - th) / 2)
    ∧ (vw < tw → -(tw - vw) ≤ (clampPan tw th vw vh p).x ∧ (clampPan tw th vw vh p).x ≤ 0)
    ∧ (vh < th → -(th - vh) ≤ (clampPan tw th vw vh p).y ∧ (clampPan tw th vw vh p).y ≤ 0) := by
  refine ⟨?_, ?_, ?_, ?_, ?_⟩
  · rcases le_or_lt tw vw with hx | hx <;> rcases le_or_lt th vh with hy | hy
    · simp [clampPan, hx, hy]
    · simp [clampPan, hx, not_le.mpr hy, reclamp (vh - th) p.y (by linarith)]
    · simp [clampPan, hy, not_le.mpr hx, reclamp (vw - tw) p.x (by linarith)]
    · simp [clampPan, not_le.mpr hx, not_le.mpr hy,
        reclamp (vw - tw) p.x (by linarith), reclamp (vh - th) p.y (by linarith)]
  · intro h
    simp [clampPan, h]
  · intro h
    simp [clampPan, h]
  · intro h
    simp only [clampPan, if_neg (not_le.mpr h)]
    exact ⟨le_max_left _ _, max_le (by linarith) (min_le_left _ _)⟩
  · intro h
    simp only [clampPan, if_neg (not_le.mpr h)]
    exact ⟨le_max_left _ _, max_le (by linarith) (min_le_left _ _)⟩

/-- Witness for C7 at concrete sizes: content wider than the viewport
(x clamps) and shorter than it (y centers). -/
theorem clampPan_idem_center_range_witness :
    clampPan 900 100 800 600 (clampPan 900 100 800 600 ⟨5, 7⟩) = clampPan 900 100 800 600 ⟨5, 7⟩
    ∧ (clampPan 900 100 800 600 ⟨5, 7⟩).y = (600 - 100) / 2
    ∧ -(900 - 800) ≤ (clampPan 900 100 800 600 ⟨5, 7⟩).x
    ∧ (clampPan 900 100 800 600 ⟨5, 7⟩).x ≤ 0 := by
  obtain ⟨h1, _, h3, h4, _⟩ := clampPan_idem_center_range 900 100 800 600 ⟨5, 7⟩
  exact ⟨h1, h3 (by decide), (h4 (by decide)).1, (h4 (by decide)).2⟩

/-! ### Page management (claim C8) -/

/-- C8: `DELETE_PAGE` is a no-op on a single-page state; otherwise it
decrements `totalPages` and adjusts `currentPage` exactly as claimed
(decrement when the deleted page is at or before a current page `> 1`, else
clamp to the new total when exceeded, else unchanged); and the concrete
scenario: three `ADD_PAGE`s from the initial state give `totalPages = 4`,
`currentPage = 4`, after which `DELETE_PAGE 2` gives `totalPages = 3`,
`currentPage = 3`. -/
theorem deletePage_spec {α : Type} (s : DrawingState α) (page : Nat) :
    (s.totalPages = 1 → drawingReducer s (.deletePage page) = s)
    ∧ (1 < s.totalPages →
        (drawingReducer s (.deletePage page)).totalPages = s.totalPages - 1
        ∧ (drawingReducer s (.deletePage page)).currentPage =
            (if page ≤ s.currentPage ∧ 1 < s.currentPage then s.currentPage - 1
             else if s.totalPages - 1 < s.currentPage then s.totalPages - 1
             else s.currentPage))
    ∧ ((applyActions [.addPage, .addPage, .addPage] : DrawingState ℚ).totalPages = 4
        ∧ (applyActions [.addPage, .addPage, .addPage] : DrawingState ℚ).currentPage = 4
        ∧ (drawingReducer (applyActions [.addPage, .addPage, .addPage] : DrawingState ℚ)
            (.deletePage 2)).totalPages = 3
        ∧ (drawingReducer (applyActions [.addPage, .addPage, .addPage] : DrawingState ℚ)
            (.deletePage 2)).currentPage = 3) := by
  refine ⟨?_, ?_, by decide⟩
  · intro h
    simp [drawingReducer, h]
  · intro h
    have hn : ¬ s.totalPages ≤ 1 := by omega
    simp [drawingReducer, hn]

/-- Witness for C8: the hypotheses hold at the initial state (one page) and
at the scenario state (four pages). -/
theorem deletePage_spec_witness :
    (initialState ℚ).totalPages = 1
    ∧ drawingReducer (initialState ℚ) (.deletePage 1) = initialState ℚ
    ∧ 1 < (applyActions [.addPage, .addPage, .addPage] : DrawingState ℚ).totalPages
    ∧ (drawingReducer (applyActions [.addPage, .addPage, .addPage] : DrawingState ℚ)
        (.deletePage 2)).totalPages
        = (applyActions [.addPage, .addPage, .addPage] : DrawingState ℚ).totalPages - 1 :=
  ⟨rfl, (deletePage_spec (initialState ℚ) 1).1 rfl, by decide,
    ((deletePage_spec (applyActions [.addPage, .addPage, .addPage]) 2).2.1 (by decide)).1⟩

/-! ### Layer deletion frame (claim C10) -/

/-- C10: on a state with more than one layer, `DELETE_LAYER` removes exactly
the elements whose `layerId` is the deleted id, and leaves every state field
other than `layers`, `currentLayerId` and `elements` unchanged — in
particular `history` and `historyIndex`, so no undo checkpoint is created;
and on a concrete reachable state the resulting elements list differs from
`history[historyIndex]`. -/
theorem deleteLayer_frame {α : Type} (s : DrawingState α) (id : String)
    (h : 1 < s.layers.length) :
    ((drawingReducer s (.deleteLayer id)).elements
        = s.elements.filter (fun el => el.layerId ≠ id)
      ∧ (drawingReducer s (.deleteLayer id)).history = s.history
      ∧ (drawingReducer s (.deleteLayer id)).historyIndex = s.historyIndex
      ∧ (drawingReducer s (.deleteLayer id)).currentTool = s.currentTool
      ∧ (drawingReducer s (.deleteLayer id)).selectedElementIds = s.selectedElementIds
      ∧ (drawingReducer s (.deleteLayer id)).gridSize = s.gridSize
      ∧ (drawingReducer s (.deleteLayer id)).gridVisible = s.gridVisible
      ∧ (drawingReducer s (.deleteLayer id)).snapToGrid = s.snapToGrid
      ∧ (drawingReducer s (.deleteLayer id)).units = s.units
      ∧ (drawingReducer s (.deleteLayer id)).zoom = s.zoom
      ∧ (drawingReducer s (.deleteLayer id)).panOffset = s.panOffset
      ∧ (drawingReducer s (.deleteLayer id)).toolSettings = s.toolSettings
      ∧ (drawingReducer s (.deleteLayer id)).isDragging = s.isDragging
      ∧ (drawingReducer s (.deleteLayer id)).dragStart = s.dragStart
      ∧ (drawingReducer s (.deleteLayer id)).editingElement = s.editingElement
      ∧ (drawingReducer s (.deleteLayer id)).savedProjects = s.savedProjects
      ∧ (drawingReducer s (.deleteLayer id)).currentProjectName = s.currentProjectName
      ∧ (drawingReducer s (.deleteLayer id)).snapThreshold = s.snapThreshold
      ∧ (drawingReducer s (.deleteLayer id)).currentPage = s.currentPage
      ∧ (drawingReducer s (.deleteLayer id)).totalPages = s.totalPages
      ∧ (drawingReducer s (.deleteLayer id)).pageWidth = s.pageWidth
      ∧ (drawingReducer s (.deleteLayer id)).pageHeight = s.pageHeight
      ∧ (drawingReducer s (.deleteLayer id)).minZoom = s.minZoom)
    ∧ ((drawingReducer
          (applyActions [.addLayer (sampleLayer "layer-4"),
            .addElement (sampleElement "e4" "layer-4" [⟨60, 60⟩])])
          (.deleteLayer "layer-4")).elements
        ≠ (drawingReducer
            (applyActions [.addLayer (sampleLayer "layer-4"),
              .addElement (sampleElement "e4" "layer-4" [⟨60, 60⟩])])
            (.deleteLayer "layer-4")).history.getD
            (drawingReducer
              (applyActions [.addLayer (sampleLayer "layer-4"),
                .addElement (sampleElement "e4" "layer-4" [⟨60, 60⟩])])
              (.deleteLayer "layer-4")).historyIndex []) := by
  have hn : ¬ s.layers.length ≤ 1 := by omega
  refine ⟨?_, by decide⟩
  simp [drawingReducer, hn]

/-- Witness for C10 at the initial state (three layers). -/
theorem deleteLayer_frame_witness :
    1 < (initialState ℚ).layers.length
    ∧ (drawingReducer (initialState ℚ) (.deleteLayer "layer-2")).history
        = (initialState ℚ).history
    ∧ (drawingReducer (initialState ℚ) (.deleteLayer "layer-2")).historyIndex
        = (initialState ℚ).historyIndex :=
  ⟨by decide, (deleteLayer_frame (initialState ℚ) "layer-2" (by decide)).1.2.1,
    (deleteLayer_frame (initialState ℚ) "layer-2" (by decide)).1.2.2.1⟩

/-! ### Eraser gesture history (claim C4) -/

/-- C4, evaluated at the failing input: starting from a state holding one
line element, an eraser gesture of pointer-down at its endpoint (which
deletes it) followed by pointer-up emits its single `SAVE_STATE` — but each
`DELETE_ELEMENTS` dispatch is itself history-significant, so the history ends
in a duplicated post-delete snapshot and a single `UNDO` after the gesture
restores nothing: the deleted element stays gone. -/
theorem eraserGesture_single_undo_restores_nothing :
    (applyActions demoActs).elements = [sampleElement "e1" "layer-1" [⟨60, 60⟩, ⟨70, 60⟩]]
    ∧ (eraserDown (applyActions demoActs, false) ⟨60, 60⟩).1.elements = []
    ∧ (eraserUp (eraserDown (applyActions demoActs, false) ⟨60, 60⟩)).1.history
        = [[], [sampleElement "e1" "layer-1" [⟨60, 60⟩, ⟨70, 60⟩]], [], []]
    ∧ (drawingReducer (eraserUp (eraserDown (applyActions demoActs, false) ⟨60, 60⟩)).1
        .undo).elements = [] := by
  with_unfolding_all decide

/-! ### Freehand pointer-up (claim C5) -/

/-- Counterexample to C5 as stated: pointer-down then immediate pointer-up
with a 1-point draft dispatches nothing, but also discards nothing — the
draft element is still present and the stroking flag is still set (the
handler only acts when the draft has more than one point). -/
theorem freehandUp_singlePoint_cx :
    ((freehandUp (freehandDown (initialState ℝ) "f1" (false, none) ⟨60, 60⟩)).2).isNone = true
    ∧ (freehandUp (freehandDown (initialState ℝ) "f1" (false, none) ⟨60, 60⟩)).1.1 = true
    ∧ ((freehandUp (freehandDown (initialState ℝ) "f1" (false, none) ⟨60, 60⟩)).1.2).isSome
        = true := by
  with_unfolding_all decide

/-- C5 (amended): on pointer-up the freehand tool commits its draft via
`ADD_ELEMENT` and resets when the draft has at least 2 points; with at most
one point (or no active stroke) the handler is a no-op — the draft is kept
and the stroking state continues, rather than being discarded. -/
theorem freehandUp_spec (isDrawing : Bool) (cur : DrawingElement ℝ) :
    (2 ≤ cur.points.length → freehandUp (true, some cur) = ((false, none), some cur))
    ∧ (cur.points.length ≤ 1 → freehandUp (true, some cur) = ((true, some cur), none))
    ∧ freehandUp (isDrawing, none) = ((isDrawing, none), none)
    ∧ freehandUp (false, some cur) = ((false, some cur), none) := by
  refine ⟨?_, ?_, ?_, ?_⟩
  · intro h
    simp [freehandUp, show 1 < cur.points.length by omega]
  · intro h
    simp [freehandUp, show ¬ 1 < cur.points.length by omega]
  · cases isDrawing <;> rfl
  · rfl

/-- Witness for C5 (amended): a 2-point draft commits. -/
theorem freehandUp_spec_witness :
    2 ≤ (sampleElementR "f2" "layer-1" [⟨60, 60⟩, ⟨64, 60⟩]).points.length
    ∧ freehandUp (true, some (sampleElementR "f2" "layer-1" [⟨60, 60⟩, ⟨64, 60⟩]))
        = ((false, none), some (sampleElementR "f2" "layer-1" [⟨60, 60⟩, ⟨64, 60⟩])) :=
  ⟨by decide, (freehandUp_spec true (sampleElementR "f2" "layer-1" [⟨60, 60⟩, ⟨64, 60⟩])).1
    (by decide)⟩

/-! ### Page clipping of tool input (claim C3) -/

lemma getPageAtPoint_contains {tp : Nat} {pw ph : ℚ} {p : QPt} {n : Nat}
    (h : getPageAtPoint tp pw ph p = some n) :
    rectContains (getPageBounds pw ph n) p = true := by
  have hfind : ((List.range tp).map (· + 1)).find?
      (fun page => rectContains (getPageBounds pw ph page) p) = some n := h
  simpa using List.find?_some hfind

/-- Identity of `clipToPageBounds`: a point inside some page is already
within that page's bounds, and a point inside no page is returned
unchanged. -/
lemma clipToPageBounds_eq_self (tp : Nat) (pw ph : ℚ) (p : QPt) :
    clipToPageBounds tp pw ph p = p := by
  obtain ⟨px, py⟩ := p
  cases hfind : getPageAtPoint tp pw ph ⟨px, py⟩ with
  | none => simp [clipToPageBounds, hfind]
  | some n =>
      have hc := getPageAtPoint_contains hfind
      rw [rectContains, decide_eq_true_eq] at hc
      obtain ⟨h1, h2, h3, h4⟩ := hc
      simp only [clipToPageBounds, hfind, QPt.mk.injEq]
      exact ⟨by rw [min_eq_right h2, max_eq_right h1], by rw [min_eq_right h4, max_eq_right h3]⟩

/-- C3 (amended): a pointer-down at a point inside no page starts no element
(line, freehand and angle all refuse); `clipToPageBounds` is the identity map
(clipping never moves a point); and a pointer-down inside page `n` starts a
line/freehand draft all of whose points lie inside page `n`'s rectangle.
(Points recorded by pointer-moves are passed through the identity
`clipToPageBounds` without a page guard, so committed elements may still
contain points outside every page — see the counterexample.) -/
theorem toolInput_pageGuard_spec :
    (∀ (tp : Nat) (pw ph : ℚ) (p : QPt), clipToPageBounds tp pw ph p = p)
    ∧ (∀ (st : DrawingState ℝ) (newId : String) (l : Bool × Option (DrawingElement ℝ))
        (p : QPt), getPageAtPoint st.totalPages st.pageWidth st.pageHeight p = none →
          lineDown st newId l p = l ∧ freehandDown st newId l p = l)
    ∧ (∀ (st : DrawingState ℝ) (newId : String) (l : Nat × Bool × Option (DrawingElement ℝ))
        (p : QPt), getPageAtPoint st.totalPages st.pageWidth st.pageHeight p = none →
          angleDown st newId l p = (l, none))
    ∧ (∀ (st : DrawingState ℝ) (newId : String) (l : Bool × Option (DrawingElement ℝ))
        (p : QPt) (n : Nat) (el : DrawingElement ℝ),
        getPageAtPoint st.totalPages st.pageWidth st.pageHeight p = some n →
          (lineDown st newId l p).2 = some el ∨ (freehandDown st newId l p).2 = some el →
          ∀ q ∈ el.points, rectContains (getPageBounds st.pageWidth st.pageHeight n) q = true) := by
  refine ⟨clipToPageBounds_eq_self, ?_, ?_, ?_⟩
  · intro st newId l p h
    constructor <;> simp [lineDown, freehandDown, h]
  · intro st newId l p h
    simp [angleDown, h]
  · intro st newId l p n el hn hor q hq
    have hclip := clipToPageBounds_eq_self st.totalPages st.pageWidth st.pageHeight p
    have hne : (getPageAtPoint st.totalPages st.pageWidth st.pageHeight p).isNone = false := by
      rw [hn]; rfl
    rcases hor with hl | hl
    · rw [lineDown, if_neg (by rw [hne]; exact Bool.false_ne_true)] at hl
      simp only [Option.some.injEq] at hl
      subst hl
      simp only [hclip, List.mem_cons, List.mem_singleton] at hq
      rcases hq with rfl | rfl | h
      · exact getPageAtPoint_contains hn
      · exact getPageAtPoint_contains hn
      · cases h
    · rw [freehandDown, if_neg (by rw [hne]; exact Bool.false_ne_true)] at hl
      simp only [Option.some.injEq] at hl
      subst hl
      simp only [hclip, List.mem_singleton] at hq
      subst hq
      exact getPageAtPoint_contains hn

/-- Witness for C3 (amended): concrete instances of the guard behaviour — a
point in the inter-page gap starts nothing, and a pointer-down inside page 1
starts an in-page draft. -/
theorem toolInput_pageGuard_spec_witness :
    clipToPageBounds 1 794 1123 ⟨100, 1300⟩ = ⟨100, 1300⟩
    ∧ getPageAtPoint (initialState ℝ).totalPages (initialState ℝ).pageWidth
        (initialState ℝ).pageHeight ⟨100, 1300⟩ = none
    ∧ lineDown (initialState ℝ) "line-1" (false, none) ⟨100, 1300⟩ = (false, none)
    ∧ getPageAtPoint (initialState ℝ).totalPages (initialState ℝ).pageWidth
        (initialState ℝ).pageHeight ⟨100, 100⟩ = some 1 := by
  obtain ⟨c1, c2, c3, c4⟩ := toolInput_pageGuard_spec
  exact ⟨c1 1 794 1123 ⟨100, 1300⟩, by with_unfolding_all decide,
    (c2 (initialState ℝ) "line-1" (false, none) ⟨100, 1300⟩ (by with_unfolding_all decide)).1,
    by with_unfolding_all decide⟩

/-- Counterexample to C3 as stated: a line-tool gesture with pointer-down at
`(100, 100)` (inside page 1) and pointer-move to `(100, 1300)` (inside no
page — below the single page) commits, on pointer-up, an element whose
second point lies inside no page's rectangle. -/
theorem lineTool_commit_outside_page_cx :
    ((lineUp (lineMove (initialState ℝ)
        (lineDown (initialState ℝ) "line-1" (false, none) ⟨100, 100⟩) ⟨100, 1300⟩)).2.map
      (fun el => el.points)) = some [⟨100, 100⟩, ⟨100, 1300⟩]
    ∧ getPageAtPoint (initialState ℝ).totalPages (initialState ℝ).pageWidth
        (initialState ℝ).pageHeight ⟨100, 1300⟩ = none := by
  refine ⟨?_, by with_unfolding_all decide⟩
  have h1 : (getPageAtPoint (initialState ℝ).totalPages (initialState ℝ).pageWidth
      (initialState ℝ).pageHeight ⟨100, 100⟩).isNone = false := by with_unfolding_all decide
  have h2 := clipToPageBounds_eq_self (initialState ℝ).totalPages (initialState ℝ).pageWidth
    (initialState ℝ).pageHeight ⟨100, 100⟩
  have h3 := clipToPageBounds_eq_self (initialState ℝ).totalPages (initialState ℝ).pageWidth
    (initialState ℝ).pageHeight ⟨100, 1300⟩
  simp [lineDown, lineMove, lineUp, h1, h2, h3, List.getD]

/-! ### Angle normalization (claim C6) -/

/-- C6: the angle committed by the angle tool's third click — the `atan2`
angle of the endpoint around the vertex minus that of the baseline point,
plus `2π` when negative — always lies in `[0, 2π)`; and whenever the
baseline/vertex/endpoint triple forms a straight angle (the endpoint sits on
the opposite ray: `toPt − center = −t · (fromPt − center)` for some `t > 0`
with `fromPt ≠ center`), the committed angle is exactly `π`. -/
theorem angleBetween_range_straight :
    (∀ center fromPt toPt : RPt,
        0 ≤ angleBetween center fromPt toPt ∧ angleBetween center fromPt toPt < 2 * Real.pi)
    ∧ (∀ (center fromPt toPt : RPt) (t : ℝ), 0 < t →
        (fromPt.x ≠ center.x ∨ fromPt.y ≠ center.y) →
        toPt.x - center.x = -(t * (fromPt.x - center.x)) →
        toPt.y - center.y = -(t * (fromPt.y - center.y)) →
        angleBetween center fromPt toPt = Real.pi) := by
  constructor
  · intro c f t
    have hb1 := Complex.neg_pi_lt_arg (⟨f.x - c.x, f.y - c.y⟩ : ℂ)
    have hb2 := Complex.arg_le_pi (⟨f.x - c.x, f.y - c.y⟩ : ℂ)
    have he1 := Complex.neg_pi_lt_arg (⟨t.x - c.x, t.y - c.y⟩ : ℂ)
    have he2 := Complex.arg_le_pi (⟨t.x - c.x, t.y - c.y⟩ : ℂ)
    have hpi := Real.pi_pos
    simp only [angleBetween, atan2]
    split_ifs with h
    · constructor <;> linarith
    · constructor <;> linarith
  · intro c f t tt ht hne hx hy
    set w : ℂ := ⟨f.x - c.x, f.y - c.y⟩ with hw
    have hpi := Real.pi_pos
    have hz : (⟨t.x - c.x, t.y - c.y⟩ : ℂ) = (tt : ℝ) * (-w) := by
      apply Complex.ext
      · show t.x - c.x = ((tt : ℝ) * (-w)).re
        rw [Complex.mul_re]
        simp only [Complex.ofReal_re, Complex.ofReal_im, Complex.neg_re, Complex.neg_im, hw]
        rw [hx]; ring
      · show t.y - c.y = ((tt : ℝ) * (-w)).im
        rw [Complex.mul_im]
        simp only [Complex.ofReal_re, Complex.ofReal_im, Complex.neg_re, Complex.neg_im, hw]
        rw [hy]; ring
    have harg : Complex.arg ⟨t.x - c.x, t.y - c.y⟩ = Complex.arg (-w) := by
      rw [hz, Complex.arg_real_mul _ ht]
    have hred : angleBetween c f t =
        if Complex.arg (-w) - Complex.arg w < 0 then
          Complex.arg (-w) - Complex.arg w + 2 * Real.pi
        else Complex.arg (-w) - Complex.arg w := by
      simp only [angleBetween, atan2, harg, hw]
    rw [hred]
    rcases lt_trichotomy w.im 0 with him | him | him
    · rw [Complex.arg_neg_eq_arg_add_pi_of_im_neg him]
      rw [if_neg (by linarith)]
      ring
    · have hrene : w.re ≠ 0 := by
        intro h0
        rcases hne with h | h
        · exact h (by have : w.re = f.x - c.x := rfl; rw [this] at h0; linarith)
        · exact h (by have : w.im = f.y - c.y := rfl; rw [this] at him; linarith)
      rcases lt_or_gt_of_ne hrene with hre | hre
      · have h1 : Complex.arg w = Real.pi := Complex.arg_eq_pi_iff.mpr ⟨hre, him⟩
        have h2 : Complex.arg (-w) = 0 := Complex.arg_eq_zero_iff.mpr
          ⟨by rw [Complex.neg_re]; linarith, by rw [Complex.neg_im, him, neg_zero]⟩
        rw [h1, h2, if_pos (by linarith)]
        ring
      · have h1 : Complex.arg w = 0 := Complex.arg_eq_zero_iff.mpr ⟨hre.le, him⟩
        have h2 : Complex.arg (-w) = Real.pi := Complex.arg_eq_pi_iff.mpr
          ⟨by rw [Complex.neg_re]; linarith, by rw [Complex.neg_im, him, neg_zero]⟩
        rw [h1, h2, if_neg (by linarith)]
        ring
    · rw [Complex.arg_neg_eq_arg_sub_pi_of_im_pos him]
      rw [if_pos (by linarith)]
      ring

/-- Witness for C6: the straight triple baseline `(1,0)`, vertex `(0,0)`,
endpoint `(-1,0)` yields exactly `π`, and a generic triple lies in
`[0, 2π)`. -/
theorem angleBetween_range_straight_witness :
    (0 : ℝ) < 1
    ∧ ((1 : ℝ) ≠ 0 ∨ (0 : ℝ) ≠ 0)
    ∧ (-1 - 0 : ℝ) = -(1 * (1 - 0))
    ∧ (0 - 0 : ℝ) = -(1 * (0 - 0))
    ∧ angleBetween ⟨0, 0⟩ ⟨1, 0⟩ ⟨-1, 0⟩ = Real.pi
    ∧ 0 ≤ angleBetween ⟨0, 0⟩ ⟨1, 0⟩ ⟨2, 3⟩
    ∧ angleBetween ⟨0, 0⟩ ⟨1, 0⟩ ⟨2, 3⟩ < 2 * Real.pi := by
  refine ⟨one_pos, Or.inl one_ne_zero, by norm_num, by norm_num, ?_, ?_, ?_⟩
  · exact angleBetween_range_straight.2 ⟨0, 0⟩ ⟨1, 0⟩ ⟨-1, 0⟩ 1 one_pos
      (Or.inl one_ne_zero) (by norm_num) (by norm_num)
  · exact (angleBetween_range_straight.1 ⟨0, 0⟩ ⟨1, 0⟩ ⟨2, 3⟩).1
  · exact (angleBetween_range_straight.1 ⟨0, 0⟩ ⟨1, 0⟩ ⟨2, 3⟩).2

/-! ### Serialization round-trip and validation (claim C9) -/

lemma isOk_error (m : String) : (Except.error m : Except String β).isOk = false := rfl

/-- The properties `deserializeDrawing` reads off an encoded element. -/
lemma jsProp_encodeElement (e : DrawingElement ℚ) :
    jsProp (encodeElement e) "id" = some (.str e.id)
    ∧ jsProp (encodeElement e) "type" = some (.str e.type.toStr)
    ∧ jsProp (encodeElement e) "points" = some (.arr (e.points.map encodePoint))
    ∧ jsProp (encodeElement e) "style" = some (encodeStyle e.style)
    ∧ jsProp (encodeElement e) "layerId" = some (.str e.layerId)
    ∧ jsProp (encodeElement e) "text" = e.text.map .str
    ∧ jsProp (encodeElement e) "fontSize" = e.fontSize.map .num
    ∧ jsProp (encodeElement e) "measurements" = e.measurements.map encodeMeas
    ∧ jsProp (encodeElement e) "selected" = e.selected.map .bool := by
  obtain ⟨id, ty, pts, st, lid, tx, fs, ms, sel⟩ := e
  cases tx <;> cases fs <;> cases ms <;> cases sel <;>
    simp [encodeElement, jsProp, getField, optField]

lemma encodeStyle_props (s : Style) :
    jsProp (encodeStyle s) "strokeColor" = some (.str s.strokeColor)
    ∧ jsProp (encodeStyle s) "strokeWidth" = some (.num s.strokeWidth)
    ∧ jsProp (encodeStyle s) "fillColor" = s.fillColor.map .str := by
  obtain ⟨sc, sw, fc⟩ := s
  cases fc <;> simp [encodeStyle, jsProp, getField, optField]

lemma encodeMeas_props (m : Meas ℚ) :
    jsProp (encodeMeas m) "length" = m.length.map .num
    ∧ jsProp (encodeMeas m) "radius" = m.radius.map .num
    ∧ jsProp (encodeMeas m) "angle" = m.angle.map .num := by
  obtain ⟨l, r, a⟩ := m
  cases l <;> cases r <;> cases a <;> simp [encodeMeas, jsProp, getField, optField]

lemma typeOk_toStr (ty : ElemType) : typeOk (some (.str ty.toStr)) = true := by
  cases ty <;> rfl

lemma validatePoints_encode (idx : Nat) (pts : List QPt) :
    ∀ pIdx, validatePoints idx pIdx (pts.map encodePoint) = .ok () := by
  induction pts with
  | nil => intro pIdx; rfl
  | cons p rest ih =>
      intro pIdx
      simp only [List.map_cons, validatePoints]
      rw [if_pos (by simp [encodePoint, jsIsNonNullObject, jsProp, getField, isNum])]
      exact ih (pIdx + 1)

lemma styleOk_encode (s : Style) : styleOk (some (encodeStyle s)) = true := by
  obtain ⟨h1, h2, _⟩ := encodeStyle_props s
  obtain ⟨sc, sw, fc⟩ := s
  cases fc <;> simp_all [styleOk, encodeStyle, jsTruthy, isStr, isNum]

lemma validateElement_encode (idx : Nat) (e : DrawingElement ℚ) :
    validateElement idx (encodeElement e) = .ok () := by
  obtain ⟨p1, p2, p3, p4, p5, _, _, _, _⟩ := jsProp_encodeElement e
  have hobj : jsIsNonNullObject (encodeElement e) = true := by
    simp [encodeElement, jsIsNonNullObject]
  simp only [validateElement, hobj, p1, p2, p3, p4, p5, typeOk_toStr, styleOk_encode,
    isStr, Bool.not_true, validatePoints_encode]
  rfl

lemma validateElements_encode (es : List (DrawingElement ℚ)) :
    ∀ idx, validateElements idx (es.map encodeElement) = .ok () := by
  induction es with
  | nil => intro idx; rfl
  | cons e rest ih =>
      intro idx
      simp only [List.map_cons, validateElements, validateElement_encode]
      exact ih (idx + 1)

lemma asStr_map_str (o : Option String) : asStr (o.map .str) = o := by cases o <;> rfl

lemma asNum_map_num (o : Option ℚ) : asNum (o.map .num) = o := by cases o <;> rfl

lemma asBool_map_bool (o : Option Bool) : asBool (o.map .bool) = o := by cases o <;> rfl

lemma decodeType_toStr (ty : ElemType) : decodeType ty.toStr = some ty := by
  cases ty <;> rfl

lemma decodePoint_encode (p : QPt) : decodePoint (encodePoint p) = some p := by
  obtain ⟨x, y⟩ := p
  simp [decodePoint, encodePoint, jsProp, getField, asNum]

lemma decodeStyle_encode (s : Style) : decodeStyle (encodeStyle s) = some s := by
  obtain ⟨sc, sw, fc⟩ := s
  obtain ⟨h1, h2, h3⟩ := encodeStyle_props ⟨sc, sw, fc⟩
  cases fc <;> simp_all [decodeStyle, asStr, asNum]

lemma decodeMeas_encode (m : Meas ℚ) : decodeMeas (encodeMeas m) = m := by
  obtain ⟨h1, h2, h3⟩ := encodeMeas_props m
  simp [decodeMeas, h1, h2, h3, asNum_map_num]

lemma decodePoints_encode (pts : List QPt) :
    decodePoints (pts.map encodePoint) = some pts := by
  induction pts with
  | nil => rfl
  | cons p rest ih => simp [decodePoints, decodePoint_encode, ih]

lemma decodeElement_encode (e : DrawingElement ℚ) :
    decodeElement (encodeElement e) = some e := by
  obtain ⟨id, ty, pts, st, lid, tx, fs, ms, sel⟩ := e
  obtain ⟨p1, p2, p3, p4, p5, p6, p7, p8, p9⟩ :=
    jsProp_encodeElement ⟨id, ty, pts, st, lid, tx, fs, ms, sel⟩
  cases ms <;> cases tx <;> cases fs <;>
    simp_all [decodeElement, decodeType_toStr, asStr_map_str, asNum_map_num, asBool_map_bool,
      decodeStyle_encode, decodePoints_encode, decodeMeas_encode, asStr, asNum]

lemma decodeElements_encode (es : List (DrawingElement ℚ)) :
    decodeElements (serializeDrawing es) = some es := by
  simp only [decodeElements, serializeDrawing]
  induction es with
  | nil => rfl
  | cons e rest ih => simp_all [decodeElementList, decodeElement_encode]

lemma pointCheck_eq (p : Json) :
    (jsIsNonNullObject p && isNum (jsProp p "x") && isNum (jsProp p "y")) = pointSchemaOk p := by
  cases p <;> simp [jsIsNonNullObject, jsProp, pointSchemaOk, isNum]

lemma validatePoints_isOk (idx : Nat) (ps : List Json) :
    ∀ pIdx, (validatePoints idx pIdx ps).isOk = ps.all pointSchemaOk := by
  induction ps with
  | nil => intro pIdx; rfl
  | cons p rest ih =>
      intro pIdx
      simp only [validatePoints, List.all_cons, ← pointCheck_eq]
      by_cases h : (jsIsNonNullObject p && isNum (jsProp p "x") && isNum (jsProp p "y")) = true
      · rw [if_pos h, h, ih (pIdx + 1)]
        simp
      · have h' : (jsIsNonNullObject p && isNum (jsProp p "x") && isNum (jsProp p "y")) = false := by
          revert h; cases (jsIsNonNullObject p && isNum (jsProp p "x") && isNum (jsProp p "y")) <;> simp
        rw [if_neg h, h', isOk_error]
        simp

lemma styleOk_eq (v : Option Json) :
    styleOk v = (match v with
      | some (.obj fs) => isStr (getField fs "strokeColor") && isNum (getField fs "strokeWidth")
      | _ => false) := by
  cases v with
  | none => rfl
  | some st => cases st <;> simp [styleOk, jsTruthy, jsProp, isStr, isNum]

lemma except_ok_bind {β γ : Type} (u : β) (f : β → Except String γ) :
    (Except.ok u >>= f) = f u := rfl

lemma except_error_bind {β γ : Type} (m : String) (f : β → Except String γ) :
    ((Except.error m : Except String β) >>= f) = Except.error m := rfl

lemma validateElement_isOk (idx : Nat) (el : Json) :
    (validateElement idx el).isOk = elementSchemaOk el := by
  cases el with
  | null => rfl
  | bool b => rfl
  | num q => rfl
  | str s => rfl
  | arr l => rfl
  | obj fs =>
      simp only [validateElement, elementSchemaOk, jsProp]
      rw [if_neg (by simp [jsIsNonNullObject])]
      by_cases h1 : isStr (getField fs "id") = true
      case neg =>
        have h1' : isStr (getField fs "id") = false := by
          revert h1; cases isStr (getField fs "id") <;> simp
        rw [if_pos (by simp [h1'])]
        simp [isOk_error, h1']
      case pos =>
        rw [if_neg (by simp [h1])]
        by_cases h2 : typeOk (getField fs "type") = true
        case neg =>
          have h2' : typeOk (getField fs "type") = false := by
            revert h2; cases typeOk (getField fs "type") <;> simp
          rw [if_pos (by simp [h2'])]
          simp [isOk_error, h1, h2']
        case pos =>
          rw [if_neg (by simp [h2])]
          cases hp : getField fs "points" with
          | none => simp [isOk_error, h1, h2, hp]
          | some js =>
              cases js with
              | arr ps =>
                  have hps := validatePoints_isOk idx ps 0
                  cases hv : validatePoints idx 0 ps with
                  | error m =>
                      rw [hv, isOk_error] at hps
                      simp [isOk_error, except_error_bind, hv, h1, h2, hp, ← hps]
                  | ok u =>
                      rw [hv] at hps
                      simp only [hv, except_ok_bind]
                      cases hs : getField fs "style" with
                      | none =>
                          rw [if_pos (by simp [styleOk])]
                          simp [isOk_error, h1, h2, hp, ← hps, hs]
                      | some stj =>
                          cases stj with
                          | obj sfs =>
                              by_cases h3 : (isStr (getField sfs "strokeColor")
                                  && isNum (getField sfs "strokeWidth")) = true
                              case pos =>
                                have hstyle : styleOk (some (Json.obj sfs)) = true := by
                                  simp only [styleOk, jsTruthy, jsProp, Bool.true_and, h3]
                                rw [if_neg (by simp [hstyle])]
                                by_cases h4 : isStr (getField fs "layerId") = true
                                case pos =>
                                    rw [if_neg (by simp [h4])]
                                    simp [h1, h2, hp, ← hps, hs, h3, h4]
                                case neg =>
                                    have h4' : isStr (getField fs "layerId") = false := by
                                      revert h4; cases isStr (getField fs "layerId") <;> simp
                                    rw [if_pos (by simp [h4'])]
                                    simp [isOk_error, h1, h2, hp, ← hps, hs, h3, h4']
                              case neg =>
                                have h3' : (isStr (getField sfs "strokeColor")
                                    && isNum (getField sfs "strokeWidth")) = false := by
                                  revert h3
                                  cases (isStr (getField sfs "strokeColor")
                                    && isNum (getField sfs "strokeWidth")) <;> simp
                                have hstyle : styleOk (some (Json.obj sfs)) = false := by
                                  simp only [styleOk, jsTruthy, jsProp, Bool.true_and, h3']
                                rw [if_pos (by simp [hstyle])]
                                simp [isOk_error, h1, h2, hp, ← hps, hs, h3']
                          | null =>
                              rw [if_pos (by simp [styleOk, jsTruthy])]
                              simp [isOk_error, h1, h2, hp, ← hps, hs]
                          | bool b =>
                              rw [if_pos (by simp [styleOk, jsTruthy, jsProp, isStr])]
                              simp [isOk_error, h1, h2, hp, ← hps, hs]
                          | num q =>
                              rw [if_pos (by simp [styleOk, jsTruthy, jsProp, isStr])]
                              simp [isOk_error, h1, h2, hp, ← hps, hs]
                          | str t =>
                              rw [if_pos (by simp [styleOk, jsTruthy, jsProp, isStr])]
                              simp [isOk_error, h1, h2, hp, ← hps, hs]
                          | arr l =>
                              rw [if_pos (by simp [styleOk, jsTruthy, jsProp, isStr])]
                              simp [isOk_error, h1, h2, hp, ← hps, hs]
              | null => simp [isOk_error, h1, h2, hp]
              | bool b => simp [isOk_error, h1, h2, hp]
              | num q => simp [isOk_error, h1, h2, hp]
              | str s => simp [isOk_error, h1, h2, hp]
              | obj ofs => simp [isOk_error, h1, h2, hp]

lemma validateElements_isOk (els : List Json) :
    ∀ idx, (validateElements idx els).isOk = els.all elementSchemaOk := by
  induction els with
  | nil => intro idx; rfl
  | cons el rest ih =>
      intro idx
      simp only [validateElements, List.all_cons]
      cases hv : validateElement idx el with
      | error m =>
          have h := validateElement_isOk idx el
          rw [hv] at h
          simp [isOk_error, except_error_bind, ← h]
      | ok u =>
          have h := validateElement_isOk idx el
          rw [hv] at h
          rw [except_ok_bind, ih (idx + 1), ← h]
          rw [show (Except.ok u : Except String Unit).isOk = true from rfl, Bool.true_and]

/-- C9: for every element list, deserializing its serialization succeeds and
returns exactly the serialized document (whose decoding is the original
list — so the loaded value is the original elements); and `deserializeDrawing`
succeeds precisely on the inputs satisfying the spec's document schema: on
any input violating it, it returns one of its descriptive errors instead of
a result. -/
theorem serialization_roundtrip_validation :
    (∀ es : List (DrawingElement ℚ),
        deserializeDrawing (serializeDrawing es) = .ok (serializeDrawing es))
    ∧ (∀ es : List (DrawingElement ℚ), decodeElements (serializeDrawing es) = some es)
    ∧ (∀ j : Json, (deserializeDrawing j).isOk = docSchemaOk j) := by
  refine ⟨?_, decodeElements_encode, ?_⟩
  · intro es
    simp only [deserializeDrawing, serializeDrawing, validateElements_encode]
    rfl
  · intro j
    cases j with
    | arr els =>
        simp only [deserializeDrawing, docSchemaOk]
        cases hv : validateElements 0 els with
        | error m =>
            have h := validateElements_isOk els 0
            rw [hv] at h
            simpa [Except.map, isOk_error] using h
        | ok u =>
            have h := validateElements_isOk els 0
            rw [hv] at h
            simpa [Except.map] using h
    | null => rfl
    | bool b => rfl
    | num q => rfl
    | str s => rfl
    | obj fs => rfl

/-- Witness for C9: a concrete one-element document round-trips, and a
non-array input is rejected. -/
theorem serialization_roundtrip_validation_witness :
    deserializeDrawing (serializeDrawing [sampleElement "e1" "layer-1" [⟨1, 2⟩]])
        = .ok (serializeDrawing [sampleElement "e1" "layer-1" [⟨1, 2⟩]])
    ∧ decodeElements (serializeDrawing [sampleElement "e1" "layer-1" [⟨1, 2⟩]])
        = some [sampleElement "e1" "layer-1" [⟨1, 2⟩]]
    ∧ (deserializeDrawing (.num 3)).isOk = docSchemaOk (.num 3) :=
  ⟨serialization_roundtrip_validation.1 [sampleElement "e1" "layer-1" [⟨1, 2⟩]],
    serialization_roundtrip_validation.2.1 [sampleElement "e1" "layer-1" [⟨1, 2⟩]],
    serialization_roundtrip_validation.2.2 (.num 3)⟩

end LineAccurate
